import Mathlib

/-!
# Verification of the ORI MCP server (grandinh/mcp-server-ori)

A shallow embedding of the server's pure logic, translated from the
TypeScript sources (`src/tools/analyze-task.ts`, `src/tools/execute-ori.ts`,
`src/tools/validate-config.ts`, `src/logging/trace.ts`) and from the
Phase 2.5 decision-matrix pseudocode and handoff-packet snapshots in the
bundled ORI workflow document (`resources/ori.md`).

Strings are modelled over their character lists; JavaScript regular
expressions used by the code (`\b`-delimited word alternations, the
version pattern `^\d+\.\d+\.\d+$`, the UUID v4 pattern) are embedded as
executable character-level matchers with the same semantics over the
ASCII fragment the code exercises.  JavaScript's Unicode-wide
`toLowerCase` is embedded on its ASCII fragment (`A`-`Z` map down, all
other characters are fixed), and floating-point score arithmetic is
modelled with exact rationals.
-/

namespace Ori

/-! ## Character-level string machinery -/

/-- `A`-`Z`, `a`-`z`, `0`-`9` or `_`: the characters matched by `\w`,
between which JavaScript's `\b` sees no boundary. -/
def isWordChar (c : Char) : Bool :=
  c.isAlpha || c.isDigit || c == '_'

/-- `prefixCL pat l` holds when `pat` is a prefix of `l`. -/
def prefixCL : List Char → List Char → Bool
  | [], _ => true
  | _ :: _, [] => false
  | a :: as, b :: bs => a == b && prefixCL as bs

/-- `includesCL pat l`: `pat` occurs contiguously in `l`
(JavaScript `String.prototype.includes`). -/
def includesCL (pat : List Char) : List Char → Bool
  | [] => prefixCL pat []
  | c :: t => prefixCL pat (c :: t) || includesCL pat t

/-- `strIncludes s pat` embeds `s.includes(pat)`. -/
def strIncludes (s pat : String) : Bool :=
  includesCL pat.data s.data

/-- There is a word boundary between the previous character (`none` at the
start of the string) and a word character. -/
def boundaryB : Option Char → Bool
  | none => true
  | some c => !isWordChar c

/-- The word `w` occurs at the head of `l` and is followed by a word
boundary (end of string or a non-word character). -/
def wordAt (w l : List Char) : Bool :=
  prefixCL w l &&
    (match l.drop w.length with
     | [] => true
     | c :: _ => !isWordChar c)

/-- Search for a `\b w \b` occurrence, tracking the previous character for
the leading boundary. -/
def containsWordAux (w : List Char) : Option Char → List Char → Bool
  | prev, [] => boundaryB prev && wordAt w []
  | prev, c :: t => (boundaryB prev && wordAt w (c :: t)) || containsWordAux w (some c) t

/-- `containsWord s w` embeds `/\bw\b/.test(s)` for a literal `w` that
starts and ends with word characters (true of every keyword the server
tests). -/
def containsWord (s w : String) : Bool :=
  containsWordAux w.data none s.data

/-- `testWords s ws` embeds `/\b(w₁|w₂|…)\b/.test(s)`. -/
def testWords (s : String) (ws : List String) : Bool :=
  ws.any (containsWord s)

/-- ASCII fragment of JavaScript `toLowerCase`: `A`-`Z` shift down by 32,
everything else is unchanged. -/
def lowerChar (c : Char) : Char :=
  if 65 ≤ c.toNat && c.toNat ≤ 90 then Char.ofNat (c.toNat + 32) else c

/-- Embeds `task.toLowerCase()`. -/
def lowerStr (s : String) : String :=
  ⟨s.data.map lowerChar⟩

/-! Matcher for the dead clarity regex `/\b[A-Z][a-z]+(?:[A-Z][a-z]+)*\b/`.
A string is in the pattern's language iff it is a nonempty sequence of
segments, each an uppercase letter followed by one or more lowercase
letters. -/

mutual

/-- After an uppercase letter: need one lowercase letter, then `capCont`. -/
def capAfterUpper : List Char → Bool
  | [] => false
  | c :: rest => c.isLower && capCont rest

/-- Inside a lowercase run: may end, continue lowercase, or start a new
uppercase-led segment. -/
def capCont : List Char → Bool
  | [] => true
  | c :: rest =>
    if c.isLower then capCont rest
    else c.isUpper && capAfterUpper rest

end

/-- Membership in the language of `[A-Z][a-z]+(?:[A-Z][a-z]+)*`. -/
def inCapLang : List Char → Bool
  | [] => false
  | c :: rest => c.isUpper && capAfterUpper rest

/-- Some prefix of `l` is in the capitalized-identifier language and is
followed by a word boundary. -/
def capAnyPrefix (l : List Char) : Bool :=
  (List.range (l.length + 1)).any fun k =>
    inCapLang (l.take k) &&
      (match l.drop k with
       | [] => true
       | c :: _ => !isWordChar c)

/-- Search all start positions, tracking the previous character for the
leading `\b`. -/
def hasCapIdentAux : Option Char → List Char → Bool
  | _, [] => false
  | prev, c :: t => (boundaryB prev && capAnyPrefix (c :: t)) || hasCapIdentAux (some c) t

/-- Embeds `/\b[A-Z][a-z]+(?:[A-Z][a-z]+)*\b/.test(s)`. -/
def hasCapIdent (s : String) : Bool :=
  hasCapIdentAux none s.data

/-! ## TaskAnalyzer (`src/tools/analyze-task.ts`, `analyzeTask`) -/

/-- Task complexity classification. -/
inductive Complexity
  | LOW
  | MEDIUM
  | HIGH
  deriving DecidableEq, Repr

/-- The recommended model tier (`"opus" | "sonnet" | "haiku"`). -/
inductive ModelTier
  | opus
  | sonnet
  | haiku
  deriving DecidableEq, Repr

/-- `complexityIndicators.high`. -/
def highComplexityKeywords : List String :=
  ["refactor", "architecture", "migrate", "complex", "multiple", "entire", "redesign"]

/-- `complexityIndicators.medium` (declared by the source but never
consulted: the classifier only tests the high and low sets). -/
def mediumComplexityKeywords : List String :=
  ["implement", "add", "create", "build", "update", "enhance"]

/-- `complexityIndicators.low`. -/
def lowComplexityKeywords : List String :=
  ["fix", "update", "change", "modify", "small", "simple"]

/-- Complexity: HIGH if any high keyword is a substring of the lowercased
task, else LOW if any low keyword is, else MEDIUM. -/
def complexityOf (task : String) : Complexity :=
  let taskLower := lowerStr task
  if highComplexityKeywords.any (strIncludes taskLower) then .HIGH
  else if lowComplexityKeywords.any (strIncludes taskLower) then .LOW
  else .MEDIUM

/-- `domainKeywords`, in the source's insertion order. -/
def domainKeywords : List (String × List String) :=
  [("Security/Auth", ["auth", "security", "jwt", "oauth", "password", "encryption", "crypto"]),
   ("API/Backend", ["api", "endpoint", "backend", "server", "database", "query"]),
   ("Frontend/UI", ["ui", "frontend", "component", "react", "vue", "angular", "css"]),
   ("DevOps/Infrastructure", ["deploy", "docker", "kubernetes", "ci/cd", "pipeline", "infrastructure"]),
   ("Data/Analytics", ["data", "analytics", "chart", "graph", "visualization", "report"]),
   ("Testing", ["test", "testing", "unit test", "integration test", "e2e"])]

/-- First matching domain wins; default `"General"`. -/
def domainOf (task : String) : String :=
  let taskLower := lowerStr task
  match domainKeywords.find? (fun p => p.2.any (strIncludes taskLower)) with
  | some p => p.1
  | none => "General"

/-- Action verbs of the clarity regex `/\b(add|create|implement|fix|remove|update)\b/`. -/
def actionVerbKeywords : List String :=
  ["add", "create", "implement", "fix", "remove", "update"]

/-- Vague terms of `/\b(improve|enhance|optimize|better)\b/`. -/
def vagueTermKeywords : List String :=
  ["improve", "enhance", "optimize", "better"]

/-- Clarity score: base 0.5; +0.2 action verb; +0.1 capitalized identifier
pattern (tested, as in the source, against the lowercased text); −0.1
vague term; +0.1 `"using"`/`"with"` substring; clamped to [0,1].
Rationals stand in for JavaScript doubles. -/
def clarityOf (task : String) : ℚ :=
  let taskLower := lowerStr task
  let s0 : ℚ := 1/2
  let s1 : ℚ := if testWords taskLower actionVerbKeywords then s0 + 1/5 else s0
  let s2 : ℚ := if hasCapIdent taskLower then s1 + 1/10 else s1
  let s3 : ℚ := if testWords taskLower vagueTermKeywords then s2 - 1/10 else s2
  let s4 : ℚ :=
    if strIncludes taskLower "using" || strIncludes taskLower "with" then s3 + 1/10 else s3
  -- `Math.max(0, Math.min(1, s4))`, written with explicit comparisons
  let clamped : ℚ := if s4 ≤ 1 then s4 else 1
  if 0 ≤ clamped then clamped else 0

/-- Security risk regex alternatives. -/
def securityRiskKeywords : List String :=
  ["auth", "password", "jwt", "oauth", "crypto", "encryption", "security"]

/-- Privacy risk regex alternatives. -/
def privacyRiskKeywords : List String :=
  ["gdpr", "ccpa", "privacy", "pii", "personal data"]

/-- Compliance risk regex alternatives. -/
def complianceRiskKeywords : List String :=
  ["license", "compliance", "legal"]

/-- Policy risk regex alternatives. -/
def policyRiskKeywords : List String :=
  ["user data", "sensitive", "confidential"]

/-- Risk flags, pushed in the source's fixed order:
security, privacy, compliance, policy. -/
def riskFlagsOf (task : String) : List String :=
  let taskLower := lowerStr task
  (if testWords taskLower securityRiskKeywords then ["security"] else []) ++
  (if testWords taskLower privacyRiskKeywords then ["privacy"] else []) ++
  (if testWords taskLower complianceRiskKeywords then ["compliance"] else []) ++
  (if testWords taskLower policyRiskKeywords then ["policy"] else [])

/-- Recommended model: opus if HIGH complexity or any risk flag, else
sonnet if MEDIUM, else haiku. -/
def modelOf (complexity : Complexity) (riskFlags : List String) : ModelTier :=
  if complexity = .HIGH || riskFlags.length > 0 then .opus
  else if complexity = .MEDIUM then .sonnet
  else .haiku

/-- Base minutes by complexity (`baseTime`). -/
def baseTimeOf : Complexity → Nat
  | .LOW => 3
  | .MEDIUM => 5
  | .HIGH => 8

/-- Estimated duration: base minutes plus 2 if any risk flag. -/
def durationOf (complexity : Complexity) (riskFlags : List String) : Nat :=
  baseTimeOf complexity + (if riskFlags.length > 0 then 2 else 0)

/-- The result record of `analyzeTask`. -/
structure TaskAnalysis where
  complexity : Complexity
  domain : String
  clarity_score : ℚ
  risk_flags : List String
  recommended_model : ModelTier
  estimated_duration_minutes : Nat
  deriving DecidableEq, Repr

/-- Embeds `analyzeTask(task)` from `src/tools/analyze-task.ts`: a total,
pure function of the task text. -/
def analyzeTask (task : String) : TaskAnalysis :=
  let complexity := complexityOf task
  let risk_flags := riskFlagsOf task
  { complexity := complexity
    domain := domainOf task
    clarity_score := clarityOf task
    risk_flags := risk_flags
    recommended_model := modelOf complexity risk_flags
    estimated_duration_minutes := durationOf complexity risk_flags }

/-- Result shape of the `analyze_task` tool handler, restricted to the
fields the claims are about (`isError` and the structured `_meta`
payload; the markdown body is presentation of the same analysis). -/
structure AnalyzeToolResult where
  isError : Bool
  meta : Option TaskAnalysis
  deriving DecidableEq, Repr

/-- Embeds `analyzeTaskTool`: it calls the total `analyzeTask` inside
`try`/`catch`, so the catch branch (`isError: true`) is unreachable and
every call succeeds with `_meta` set to the analysis. -/
def analyzeTaskTool (task : String) : AnalyzeToolResult :=
  { isError := false, meta := some (analyzeTask task) }

/-- The `minLength` constraint the server advertises for `analyze_task`'s
`task` parameter in its tool list (`src/index.ts`, inputSchema). -/
def analyzeTaskInputMinLength : Nat := 10

/-! ## Trace IDs (`src/logging/trace.ts`) and the `execute_ori` tool
(`src/tools/execute-ori.ts`) -/

/-- `[0-9a-f]` case-insensitively. -/
def isUuidHexDigit (c : Char) : Bool :=
  c.isDigit || ('a' ≤ c && c ≤ 'f') || ('A' ≤ c && c ≤ 'F')

/-- Character admissible at position `i` of a UUID v4 per
`/^[0-9a-f]{8}-[0-9a-f]{4}-4[0-9a-f]{3}-[89ab][0-9a-f]{3}-[0-9a-f]{12}$/i`. -/
def uuidPosOk (i : Nat) (c : Char) : Bool :=
  if i == 8 || i == 13 || i == 18 || i == 23 then c == '-'
  else if i == 14 then c == '4'
  else if i == 19 then
    c == '8' || c == '9' || c == 'a' || c == 'b' || c == 'A' || c == 'B'
  else isUuidHexDigit c

/-- Embeds `isValidTraceId` from `src/logging/trace.ts`. -/
def isValidTraceId (s : String) : Bool :=
  s.data.length == 36 && s.data.enum.all fun p => uuidPosOk p.1 p.2

/-- The optional `config` argument of `execute_ori`. -/
structure ExecuteOriConfig where
  sme_enabled : Option Bool := none
  security_sme : Option Bool := none
  logging : Option Bool := none
  trace_id : Option String := none
  deriving DecidableEq, Repr

/-- The arguments of `execute_ori`. -/
structure ExecuteOriArgs where
  task : String
  context : Option String := none
  config : Option ExecuteOriConfig := none
  deriving DecidableEq, Repr

/-- The trace ID selected at the top of `executeOriTool`: the supplied
`config.trace_id` when it is truthy (nonempty) and passes
`isValidTraceId`, otherwise the freshly generated `fresh` standing for
`generateTraceId()` (whose randomness is outside the model). -/
def effectiveTraceId (args : ExecuteOriArgs) (fresh : String) : String :=
  match args.config.bind (·.trace_id) with
  | some t => if !t.isEmpty && isValidTraceId t then t else fresh
  | none => fresh

/-- Result shape of `execute_ori`, restricted to the fields the claims
are about (the instruction text is presentation; `duration_seconds` is
wall clock, outside the model). -/
structure ExecuteOriResult where
  isError : Bool
  meta_trace_id : String
  feedback_url : String
  deriving DecidableEq, Repr

/-- Embeds `executeOriTool`: the body only builds strings, so the catch
branch is unreachable; `_meta.trace_id` is the selected trace ID. -/
def executeOriTool (args : ExecuteOriArgs) (fresh : String) : ExecuteOriResult :=
  let traceId := effectiveTraceId args fresh
  { isError := false
    meta_trace_id := traceId
    feedback_url :=
      "https://github.com/grandinh/mcp-server-ori/issues/new?template=workflow-feedback.yml&trace_id="
        ++ traceId }

/-! ## Config validation (`src/tools/validate-config.ts`) -/

/-- Deserialized JSON documents (objects keep insertion order, as the
validator receives them from `JSON.parse`). -/
inductive Json
  | null
  | bool (b : Bool)
  | num (q : ℚ)
  | str (s : String)
  | arr (xs : List Json)
  | obj (fields : List (String × Json))

/-- One zod issue, with the dotted path the tool reports
(`err.path.join(".")`). -/
structure Issue where
  path : String
  message : String
  deriving DecidableEq, Repr

/-- Property lookup on an object's field list. -/
def jlookup (fs : List (String × Json)) (key : String) : Option Json :=
  (fs.find? fun p => p.1 == key).map (·.2)

/-- Dotted child path. -/
def joinPath (p key : String) : String :=
  if p = "" then key else p ++ "." ++ key

/-- Split a character list on `'.'` (the groups between dots, in order;
`n` dots yield `n + 1` groups). -/
def splitOnDot : List Char → List (List Char)
  | [] => [[]]
  | c :: t =>
    if c == '.' then [] :: splitOnDot t
    else
      match splitOnDot t with
      | g :: gs => (c :: g) :: gs
      | [] => [[c]]

/-- `^\d+\.\d+\.\d+$`: exactly two dots separating three nonempty
all-digit groups. -/
def isVersionString (s : String) : Bool :=
  match splitOnDot s.data with
  | [a, b, c] =>
    !a.isEmpty && !b.isEmpty && !c.isEmpty &&
      a.all Char.isDigit && b.all Char.isDigit && c.all Char.isDigit
  | _ => false

/-- `z.string()`. -/
def checkString (p : String) : Json → List Issue
  | .str _ => []
  | _ => [⟨p, "Expected string"⟩]

/-- `z.boolean()`. -/
def checkBool (p : String) : Json → List Issue
  | .bool _ => []
  | _ => [⟨p, "Expected boolean"⟩]

/-- `z.number()`. -/
def checkNumber (p : String) : Json → List Issue
  | .num _ => []
  | _ => [⟨p, "Expected number"⟩]

/-- `z.string().regex(/^\d+\.\d+\.\d+$/)`. -/
def checkVersion (p : String) : Json → List Issue
  | .str s => if isVersionString s then [] else [⟨p, "Invalid"⟩]
  | _ => [⟨p, "Expected string"⟩]

/-- Element-wise walk of `z.array(z.string())`, issues in element order
with the element's index on the path. -/
def checkStringArrayAux (p : String) (i : Nat) : List Json → List Issue
  | [] => []
  | v :: rest => checkString (joinPath p (toString i)) v ++ checkStringArrayAux p (i + 1) rest

/-- `z.array(z.string())`, one issue per non-string element, indexed paths. -/
def checkStringArray (p : String) : Json → List Issue
  | .arr xs => checkStringArrayAux p 0 xs
  | _ => [⟨p, "Expected array"⟩]

/-- Key-wise walk of `z.record(z.array(z.string()))`. -/
def checkRecordAux (p : String) : List (String × Json) → List Issue
  | [] => []
  | (k, v) :: rest => checkStringArray (joinPath p k) v ++ checkRecordAux p rest

/-- `z.record(z.array(z.string()))`. -/
def checkRecordStringArray (p : String) : Json → List Issue
  | .obj fs => checkRecordAux p fs
  | _ => [⟨p, "Expected object"⟩]

/-- A required object key: absent yields a `Required` issue, present is
checked. -/
def reqField (fs : List (String × Json)) (p key : String)
    (chk : String → Json → List Issue) : List Issue :=
  match jlookup fs key with
  | some v => chk (joinPath p key) v
  | none => [⟨joinPath p key, "Required"⟩]

/-- An `.optional()` object key: absent is fine, present is checked. -/
def optField (fs : List (String × Json)) (p key : String)
    (chk : String → Json → List Issue) : List Issue :=
  match jlookup fs key with
  | some v => chk (joinPath p key) v
  | none => []

/-- The `security` SME sub-config schema. -/
def checkSecuritySme (p : String) : Json → List Issue
  | .obj fs =>
    reqField fs p "enabled" checkBool ++
    optField fs p "auto_invoke_on_keywords" checkStringArray ++
    optField fs p "auto_invoke_on_risk_flags" checkStringArray ++
    optField fs p "block_on_critical" checkBool
  | _ => [⟨p, "Expected object"⟩]

/-- The `compliance` SME sub-config schema. -/
def checkComplianceSme (p : String) : Json → List Issue
  | .obj fs =>
    reqField fs p "enabled" checkBool ++
    optField fs p "auto_invoke_on_keywords" checkStringArray ++
    optField fs p "auto_invoke_on_risk_flags" checkStringArray
  | _ => [⟨p, "Expected object"⟩]

/-- The `code_quality` SME sub-config schema. -/
def checkCodeQualitySme (p : String) : Json → List Issue
  | .obj fs =>
    reqField fs p "enabled" checkBool ++
    optField fs p "complexity_threshold" checkNumber
  | _ => [⟨p, "Expected object"⟩]

/-- The `performance` SME sub-config schema. -/
def checkPerformanceSme (p : String) : Json → List Issue
  | .obj fs =>
    reqField fs p "enabled" checkBool ++
    optField fs p "auto_invoke_on_keywords" checkStringArray
  | _ => [⟨p, "Expected object"⟩]

/-- The `sme_agents` schema. -/
def checkSmeAgents (p : String) : Json → List Issue
  | .obj fs =>
    reqField fs p "enabled" checkBool ++
    optField fs p "security" checkSecuritySme ++
    optField fs p "compliance" checkComplianceSme ++
    optField fs p "code_quality" checkCodeQualitySme ++
    optField fs p "performance" checkPerformanceSme
  | _ => [⟨p, "Expected object"⟩]

/-- The `safety_hooks` schema. -/
def checkSafetyHooks (p : String) : Json → List Issue
  | .obj fs =>
    reqField fs p "enabled" checkBool ++
    optField fs p "pre_phase" checkRecordStringArray ++
    optField fs p "post_phase" checkRecordStringArray ++
    optField fs p "emergency" checkStringArray
  | _ => [⟨p, "Expected object"⟩]

/-- The `logging` schema. -/
def checkLogging (p : String) : Json → List Issue
  | .obj fs =>
    reqField fs p "enabled" checkBool ++
    optField fs p "log_directory" checkString ++
    optField fs p "retention_days" checkNumber ++
    optField fs p "log_handoff_packets" checkBool ++
    optField fs p "log_sme_reviews" checkBool
  | _ => [⟨p, "Expected object"⟩]

/-- All issues `OriConfigSchema.safeParse` collects for a document
(empty exactly when parsing succeeds). -/
def schemaIssues : Json → List Issue
  | .obj fs =>
    reqField fs "" "version" checkVersion ++
    reqField fs "" "sme_agents" checkSmeAgents ++
    optField fs "" "safety_hooks" checkSafetyHooks ++
    optField fs "" "logging" checkLogging
  | _ => [⟨"", "Expected object"⟩]

/-! An independent, direct statement of conformance to `OriConfigSchema`,
used to characterize the validator's `valid` flag. -/

/-- Optional key conformance. -/
def optAccepts (fs : List (String × Json)) (key : String) (ok : Json → Bool) : Bool :=
  match jlookup fs key with
  | some v => ok v
  | none => true

/-- Required key conformance. -/
def reqAccepts (fs : List (String × Json)) (key : String) (ok : Json → Bool) : Bool :=
  match jlookup fs key with
  | some v => ok v
  | none => false

/-- Value is a string. -/
def stringAccepts : Json → Bool
  | .str _ => true
  | _ => false

/-- Value is a number. -/
def numberAccepts : Json → Bool
  | .num _ => true
  | _ => false

/-- Value is a boolean. -/
def boolAccepts : Json → Bool
  | .bool _ => true
  | _ => false

/-- Value is a semantic-version string. -/
def versionAccepts : Json → Bool
  | .str s => isVersionString s
  | _ => false

/-- Required boolean key. -/
def reqBoolAccepts (fs : List (String × Json)) (key : String) : Bool :=
  reqAccepts fs key boolAccepts

/-- Value is an array of strings. -/
def stringArrayAccepts : Json → Bool
  | .arr xs => xs.all stringAccepts
  | _ => false

/-- Value is an object whose every value is an array of strings. -/
def recordStringArrayAccepts : Json → Bool
  | .obj fs => fs.all fun kv => stringArrayAccepts kv.2
  | _ => false

/-- `security` sub-config conformance. -/
def securitySmeAccepts : Json → Bool
  | .obj fs =>
    reqBoolAccepts fs "enabled" &&
    optAccepts fs "auto_invoke_on_keywords" stringArrayAccepts &&
    optAccepts fs "auto_invoke_on_risk_flags" stringArrayAccepts &&
    optAccepts fs "block_on_critical" boolAccepts
  | _ => false

/-- `compliance` sub-config conformance. -/
def complianceSmeAccepts : Json → Bool
  | .obj fs =>
    reqBoolAccepts fs "enabled" &&
    optAccepts fs "auto_invoke_on_keywords" stringArrayAccepts &&
    optAccepts fs "auto_invoke_on_risk_flags" stringArrayAccepts
  | _ => false

/-- `code_quality` sub-config conformance. -/
def codeQualitySmeAccepts : Json → Bool
  | .obj fs =>
    reqBoolAccepts fs "enabled" &&
    optAccepts fs "complexity_threshold" numberAccepts
  | _ => false

/-- `performance` sub-config conformance. -/
def performanceSmeAccepts : Json → Bool
  | .obj fs =>
    reqBoolAccepts fs "enabled" &&
    optAccepts fs "auto_invoke_on_keywords" stringArrayAccepts
  | _ => false

/-- `sme_agents` conformance. -/
def smeAgentsAccepts : Json → Bool
  | .obj fs =>
    reqBoolAccepts fs "enabled" &&
    optAccepts fs "security" securitySmeAccepts &&
    optAccepts fs "compliance" complianceSmeAccepts &&
    optAccepts fs "code_quality" codeQualitySmeAccepts &&
    optAccepts fs "performance" performanceSmeAccepts
  | _ => false

/-- `safety_hooks` conformance. -/
def safetyHooksAccepts : Json → Bool
  | .obj fs =>
    reqBoolAccepts fs "enabled" &&
    optAccepts fs "pre_phase" recordStringArrayAccepts &&
    optAccepts fs "post_phase" recordStringArrayAccepts &&
    optAccepts fs "emergency" stringArrayAccepts
  | _ => false

/-- `logging` conformance. -/
def loggingAccepts : Json → Bool
  | .obj fs =>
    reqBoolAccepts fs "enabled" &&
    optAccepts fs "log_directory" stringAccepts &&
    optAccepts fs "retention_days" numberAccepts &&
    optAccepts fs "log_handoff_packets" boolAccepts &&
    optAccepts fs "log_sme_reviews" boolAccepts
  | _ => false

/-- Direct structural conformance to `OriConfigSchema`, stated without
reference to the issue collector. -/
def schemaAccepts : Json → Bool
  | .obj fs =>
    reqAccepts fs "version" versionAccepts &&
    reqAccepts fs "sme_agents" smeAgentsAccepts &&
    optAccepts fs "safety_hooks" safetyHooksAccepts &&
    optAccepts fs "logging" loggingAccepts
  | _ => false

/-- Truthy boolean at `key` of an optional sub-object of `sme_agents`:
`result.data.sme_agents.X?.enabled` with JavaScript optional chaining,
where an absent sub-object or absent key reads as falsy. -/
def smeSubEnabled (smeFs : List (String × Json)) (key : String) : Bool :=
  match jlookup smeFs key with
  | some (.obj sub) =>
    (match jlookup sub "enabled" with
     | some (.bool b) => b
     | _ => false)
  | _ => false

/-- The warnings the tool pushes on a structurally valid document. -/
def configWarnings (j : Json) : List String :=
  let fs := match j with | .obj fs => fs | _ => []
  let w1 :=
    match jlookup fs "sme_agents" with
    | some (.obj smeFs) =>
      (match jlookup smeFs "enabled" with
       | some (.bool true) =>
         if smeSubEnabled smeFs "security" || smeSubEnabled smeFs "compliance" ||
            smeSubEnabled smeFs "code_quality" || smeSubEnabled smeFs "performance" then
           []
         else
           ["sme_agents.enabled is true but no specific SME agents are enabled"]
       | _ => [])
    | _ => []
  let w2 :=
    match jlookup fs "logging" with
    | some (.obj logFs) =>
      (match jlookup logFs "enabled" with
       | some (.bool true) =>
         -- `!result.data.logging.log_directory`: absent or empty string is falsy
         (match jlookup logFs "log_directory" with
          | some (.str s) => if s.isEmpty then
              ["Logging enabled but log_directory not specified (will use default)"]
            else []
          | _ => ["Logging enabled but log_directory not specified (will use default)"])
       | _ => [])
    | _ => []
  w1 ++ w2

/-- The structured `_meta` result of `validate_config`. -/
structure ValidationResult where
  valid : Bool
  errors : List Issue
  warnings : List String
  deriving DecidableEq, Repr

/-- Embeds the validation stage of `validateConfigTool`: `safeParse`
against `OriConfigSchema`, then warnings on success or the issue list on
failure.  Pure: the input document is read, never modified or coerced. -/
def validateConfig (j : Json) : ValidationResult :=
  match schemaIssues j with
  | [] => { valid := true, errors := [], warnings := configWarnings j }
  | issues => { valid := false, errors := issues, warnings := [] }

/-! ## Quality-gate engine (Phase 2.5 decision matrix, `resources/ori.md`) -/

/-- Finding severity; the strict total order Critical > High > Medium >
Low > Info is used only for gating. -/
inductive Severity
  | Critical
  | High
  | Medium
  | Low
  | Info
  deriving DecidableEq, Repr

/-- A finding as aggregated into `handoff_packet.sme_reviews`. -/
structure Finding where
  severity : Severity
  category : String
  finding : String
  recommendation : String
  deriving DecidableEq, Repr

/-- One SME's aggregated review. -/
structure SmeReview where
  executed : Bool
  overall_risk : String
  findings : List Finding
  recommendation : String
  deriving DecidableEq, Repr

/-- The control decision of the Phase 2.5 decision matrix: `Pause`
carries the collected `(sme_name, finding)` pairs of Critical and High
severity. -/
inductive GateDecision
  | Proceed
  | Pause (critical : List (String × Finding)) (high : List (String × Finding))
  deriving DecidableEq, Repr

/-- The nested loop of the decision matrix: walk the SME reviews in
insertion order and append each Critical (resp. High) finding, paired
with its SME name, to the corresponding accumulator. -/
def gateCollect (acc : List (String × Finding) × List (String × Finding)) :
    List (String × SmeReview) → List (String × Finding) × List (String × Finding)
  | [] => acc
  | (name, review) :: rest =>
    let acc' := review.findings.foldl
      (fun a f =>
        if f.severity = .Critical then (a.1 ++ [(name, f)], a.2)
        else if f.severity = .High then (a.1, a.2 ++ [(name, f)])
        else a)
      acc
    gateCollect acc' rest

/-- Embeds the Phase 2.5 decision matrix: pause when any Critical or High
finding was collected, otherwise proceed. -/
def gateDecide (reviews : List (String × SmeReview)) : GateDecision :=
  let (criticals, highs) := gateCollect ([], []) reviews
  if criticals = [] ∧ highs = [] then .Proceed
  else .Pause criticals highs

/-- All `(sme_name, finding)` pairs of a review mapping, in insertion
order. -/
def allFindingPairs (reviews : List (String × SmeReview)) : List (String × Finding) :=
  reviews.flatMap fun nr => nr.2.findings.map fun f => (nr.1, f)

/-! ## Handoff-packet phase tracking (`resources/ori.md`)

The workflow document specifies the packet's `phase` record at
initialization (`current: 0, next: 1, completed: [], remaining:
[1,2,3,4]`) and after entering the Phase 2.5 gate (`current: 2.5, next:
3, completed: [0,1,2], remaining: [3,4]`), with phases otherwise
advancing in order; `next` is always the head of `remaining` and is
omitted here.  Transitions are modelled from these snapshots: an
ordinary advance moves the head of `remaining` into `current` and
appends the old `current` to `completed`; entering the conditional gate
from phase 2 makes 2.5 current without consuming `remaining`. -/

/-- The phase identifiers 0, 1, 2, 2.5, 3, 4. -/
inductive Phase
  | p0
  | p1
  | p2
  | p2_5
  | p3
  | p4
  deriving DecidableEq, Repr

/-- The packet's `phase` record (without the derived `next`). -/
structure PhaseRecord where
  current : Phase
  completed : List Phase
  remaining : List Phase
  deriving DecidableEq, Repr

/-- The packet as initialized in Phase 0. -/
def initPacket : PhaseRecord :=
  { current := .p0, completed := [], remaining := [.p1, .p2, .p3, .p4] }

/-- One phase transition. -/
inductive PhaseStep : PhaseRecord → PhaseRecord → Prop
  | advance (s : PhaseRecord) (r : Phase) (rs : List Phase)
      (h : s.remaining = r :: rs) :
      PhaseStep s ⟨r, s.completed ++ [s.current], rs⟩
  | gate (s : PhaseRecord) (h : s.current = .p2) :
      PhaseStep s ⟨.p2_5, s.completed ++ [s.current], s.remaining⟩

/-- States reachable from the initial packet by any sequence of phase
executions. -/
def PhaseReachable (s : PhaseRecord) : Prop :=
  Relation.ReflTransGen PhaseStep initPacket s

/-- Whether the conditional gate has been entered in this run. -/
def gateEntered (s : PhaseRecord) : Bool :=
  s.completed.contains .p2_5 || s.current == .p2_5

/-- The run's effective phase order: the mandatory phases, with 2.5
inserted when the gate has been entered. -/
def effSeq (b : Bool) : List Phase :=
  if b then [.p0, .p1, .p2, .p2_5, .p3, .p4] else [.p0, .p1, .p2, .p3, .p4]

/-- Modelled from the spec: the spec's §4.3 "fixed ordered phase
identifiers" `Strategy(0) → Research(1) → Verify(2) → SmeGate(2.5) →
Implement(3) → Document(4)` — the full fixed phase sequence the claim's
union property refers to, including the conditional gate. -/
def specFullPhaseSequence : List Phase :=
  [.p0, .p1, .p2, .p2_5, .p3, .p4]

/-- Modelled from the spec: the spec's §4.1 low-complexity keyword set
`{fix, small, simple, modify}`, to be compared with the source's
`complexityIndicators.low`. -/
def specLowComplexityKeywords : List String :=
  ["fix", "small", "simple", "modify"]

/-- The finitely many packet states reachable from `initPacket`. -/
def phaseStateList : List PhaseRecord :=
  [⟨.p0, [], [.p1, .p2, .p3, .p4]⟩,
   ⟨.p1, [.p0], [.p2, .p3, .p4]⟩,
   ⟨.p2, [.p0, .p1], [.p3, .p4]⟩,
   ⟨.p3, [.p0, .p1, .p2], [.p4]⟩,
   ⟨.p4, [.p0, .p1, .p2, .p3], []⟩,
   ⟨.p2_5, [.p0, .p1, .p2], [.p3, .p4]⟩,
   ⟨.p3, [.p0, .p1, .p2, .p2_5], [.p4]⟩,
   ⟨.p4, [.p0, .p1, .p2, .p2_5, .p3], []⟩]

/-! ## Helper lemmas -/

/-- `prefixCL` agrees with `List.IsPrefix`. -/
theorem prefixCL_iff {p l : List Char} : prefixCL p l = true ↔ p <+: l := by
  induction p generalizing l with
  | nil => simp [prefixCL]
  | cons a as ih =>
    cases l with
    | nil => simp [prefixCL]
    | cons b bs => simp [prefixCL, ih, List.cons_prefix_cons]

/-- `includesCL` agrees with `List.IsInfix`. -/
theorem includesCL_iff {p l : List Char} : includesCL p l = true ↔ p <:+: l := by
  induction l with
  | nil => simp [includesCL, prefixCL_iff]
  | cons c t ih => simp [includesCL, prefixCL_iff, ih, List.infix_cons_iff]

/-- Substring containment propagates to substrings of the pattern. -/
theorem strIncludes_of_infix {s p q : String} (hpq : p.data <:+: q.data)
    (h : strIncludes s q = true) : strIncludes s p = true := by
  unfold strIncludes at *
  rw [includesCL_iff] at *
  exact hpq.trans h

/-- `analyzeTask` projections. -/
theorem analyzeTask_complexity (t : String) :
    (analyzeTask t).complexity = complexityOf t := rfl

/-- `analyzeTask` risk-flag projection. -/
theorem analyzeTask_risk_flags (t : String) :
    (analyzeTask t).risk_flags = riskFlagsOf t := rfl

/-- `analyzeTask` model projection. -/
theorem analyzeTask_model (t : String) :
    (analyzeTask t).recommended_model = modelOf (complexityOf t) (riskFlagsOf t) := rfl

/-- `analyzeTask` clarity projection. -/
theorem analyzeTask_clarity (t : String) :
    (analyzeTask t).clarity_score = clarityOf t := rfl

/-! ## Claim theorems -/

/-- C2 (counterexample): the task-analysis operation does not fail on a
7-character task: the handler succeeds on `"fix css"` although it is
shorter than the 10-character minimum, refuting the claimed
`InvalidInput` failure on short input. -/
theorem C2_counterexample_short_task_succeeds :
    (analyzeTaskTool "fix css").isError = false ∧
      "fix css".length < analyzeTaskInputMinLength :=
  ⟨rfl, by decide⟩

/-- C2 (amended): the task-analysis handler never fails: for every task
text — empty or shorter than the advertised minimum included — it
succeeds and returns a `TaskAnalysis` in `_meta`; the 10-character
minimum exists only as `minLength` in the advertised input schema and is
not enforced by the handler. -/
theorem C2_analyze_task_total :
    (∀ task, (analyzeTaskTool task).isError = false ∧
      (analyzeTaskTool task).meta = some (analyzeTask task)) ∧
    analyzeTaskInputMinLength = 10 :=
  ⟨fun _ => ⟨rfl, rfl⟩, rfl⟩

/-- C3 (counterexample): `"update privacy policy for GDPR"` yields
riskFlags `["privacy"]` only — it does not contain `"compliance"`,
because GDPR is a privacy keyword and none of the compliance keywords
(license, compliance, legal) occur. -/
theorem C3_counterexample_gdpr_no_compliance :
    (analyzeTask "update privacy policy for GDPR").risk_flags = ["privacy"] ∧
      "compliance" ∉ (analyzeTask "update privacy policy for GDPR").risk_flags := by
  decide

/-- C3 (amended): risk-flag detection is four independent membership
tests emitted in the fixed order security, privacy, compliance, policy;
`"add JWT authentication with bcrypt"` yields a set containing
`"security"`, and `"update privacy policy for GDPR"` yields exactly
`["privacy"]`. -/
theorem C3_risk_flags_spec : ∀ t,
    ((analyzeTask t).risk_flags.Sublist ["security", "privacy", "compliance", "policy"])
    ∧ ("security" ∈ (analyzeTask t).risk_flags ↔
        testWords (lowerStr t) securityRiskKeywords = true)
    ∧ ("privacy" ∈ (analyzeTask t).risk_flags ↔
        testWords (lowerStr t) privacyRiskKeywords = true)
    ∧ ("compliance" ∈ (analyzeTask t).risk_flags ↔
        testWords (lowerStr t) complianceRiskKeywords = true)
    ∧ ("policy" ∈ (analyzeTask t).risk_flags ↔
        testWords (lowerStr t) policyRiskKeywords = true)
    ∧ "security" ∈ (analyzeTask "add JWT authentication with bcrypt").risk_flags
    ∧ (analyzeTask "update privacy policy for GDPR").risk_flags = ["privacy"] := by
  intro t
  have hA : "security" ∈ (analyzeTask "add JWT authentication with bcrypt").risk_flags := by
    decide
  have hB : (analyzeTask "update privacy policy for GDPR").risk_flags = ["privacy"] := by
    decide
  refine ⟨?_, ?_, ?_, ?_, ?_, hA, hB⟩ <;>
  · simp only [analyzeTask_risk_flags, riskFlagsOf]
    cases h1 : testWords (lowerStr t) securityRiskKeywords <;>
      cases h2 : testWords (lowerStr t) privacyRiskKeywords <;>
        cases h3 : testWords (lowerStr t) complianceRiskKeywords <;>
          cases h4 : testWords (lowerStr t) policyRiskKeywords <;> decide

/-- C4 (counterexample): `"update the readme"` is classified LOW although
it contains none of the claimed low-complexity set
{fix, small, simple, modify} (nor any high keyword), because the
source's low set also contains `"update"` and `"change"`. -/
theorem C4_counterexample_update_is_low :
    (analyzeTask "update the readme").complexity = Complexity.LOW
    ∧ Complexity.LOW ≠ Complexity.MEDIUM
    ∧ specLowComplexityKeywords.any (strIncludes (lowerStr "update the readme")) = false
    ∧ highComplexityKeywords.any (strIncludes (lowerStr "update the readme")) = false := by
  decide

/-- C4 (amended): complexity is HIGH if any high keyword matches
(case-insensitively, as a substring), otherwise LOW if any keyword of
the source's low set {fix, update, change, modify, small, simple}
matches, otherwise MEDIUM; the high check takes priority, so any task
containing `"refactor the entire auth module"` is HIGH. -/
theorem C4_complexity_precedence : ∀ t,
    ((analyzeTask t).complexity = .HIGH ↔
      highComplexityKeywords.any (strIncludes (lowerStr t)) = true)
    ∧ ((analyzeTask t).complexity = .LOW ↔
      (highComplexityKeywords.any (strIncludes (lowerStr t)) = false ∧
        lowComplexityKeywords.any (strIncludes (lowerStr t)) = true))
    ∧ ((analyzeTask t).complexity = .MEDIUM ↔
      (highComplexityKeywords.any (strIncludes (lowerStr t)) = false ∧
        lowComplexityKeywords.any (strIncludes (lowerStr t)) = false))
    ∧ (strIncludes (lowerStr t) "refactor the entire auth module" = true →
      (analyzeTask t).complexity = .HIGH) := by
  intro t
  simp only [analyzeTask_complexity, complexityOf]
  refine ⟨?_, ?_, ?_, fun h => ?_⟩
  · cases hH : highComplexityKeywords.any (strIncludes (lowerStr t)) <;>
      cases hL : lowComplexityKeywords.any (strIncludes (lowerStr t)) <;> simp
  · cases hH : highComplexityKeywords.any (strIncludes (lowerStr t)) <;>
      cases hL : lowComplexityKeywords.any (strIncludes (lowerStr t)) <;> simp
  · cases hH : highComplexityKeywords.any (strIncludes (lowerStr t)) <;>
      cases hL : lowComplexityKeywords.any (strIncludes (lowerStr t)) <;> simp
  · have h1 : strIncludes (lowerStr t) "refactor" = true :=
      strIncludes_of_infix (by decide) h
    have h2 : highComplexityKeywords.any (strIncludes (lowerStr t)) = true := by
      simp [highComplexityKeywords, h1]
    simp [h2]

/-- C4 (witness): the amended precedence applied at the concrete task
`"refactor the entire auth module"`. -/
theorem C4_complexity_precedence_witness :
    (analyzeTask "refactor the entire auth module").complexity = .HIGH :=
  (C4_complexity_precedence "refactor the entire auth module").2.2.2 (by decide)

/-- C5 (code bug): the capitalized-identifier bonus is dead code.  On
`"Create UserProfile widget using React"` the pattern
`[A-Z][a-z]+([A-Z][a-z]+)*` with word boundaries is present in the
original text, but the source tests it against the lowercased text,
where it never matches, so the clarity score is 0.8 (base 0.5 + 0.2
action verb + 0.1 qualifier) instead of the specified 0.9. -/
theorem C5_capitalized_bonus_dead :
    hasCapIdent "Create UserProfile widget using React" = true
    ∧ hasCapIdent (lowerStr "Create UserProfile widget using React") = false
    ∧ (analyzeTask "Create UserProfile widget using React").clarity_score = 4/5 := by
  refine ⟨by decide, by decide, ?_⟩
  have h1 : testWords (lowerStr "Create UserProfile widget using React")
      actionVerbKeywords = true := by decide
  have h2 : hasCapIdent (lowerStr "Create UserProfile widget using React") = false := by
    decide
  have h3 : testWords (lowerStr "Create UserProfile widget using React")
      vagueTermKeywords = false := by decide
  have h4 : (strIncludes (lowerStr "Create UserProfile widget using React") "using" ||
      strIncludes (lowerStr "Create UserProfile widget using React") "with") = true := by
    decide
  rw [analyzeTask_clarity]
  simp only [clarityOf, h1, h2, h3, h4]
  norm_num

/-- `modelOf` over arbitrary complexity and flag values. -/
theorem modelOf_spec (c : Complexity) (flags : List String) :
    modelOf c flags =
      (if c = .HIGH ∨ flags ≠ [] then .opus
       else if c = .MEDIUM then .sonnet
       else .haiku) := by
  cases c <;> cases flags <;> simp [modelOf]

/-- C6: the recommended model is opus if complexity is HIGH or at least
one risk flag is present (logical OR), otherwise sonnet for MEDIUM,
otherwise haiku. -/
theorem C6_recommended_model : ∀ t,
    (analyzeTask t).recommended_model =
      (if (analyzeTask t).complexity = .HIGH ∨ (analyzeTask t).risk_flags ≠ [] then .opus
       else if (analyzeTask t).complexity = .MEDIUM then .sonnet
       else .haiku) := by
  intro t
  simp only [analyzeTask_model, analyzeTask_complexity, analyzeTask_risk_flags]
  exact modelOf_spec (complexityOf t) (riskFlagsOf t)

/-- C10: `execute_ori` echoes a supplied trace ID in `_meta.trace_id`
exactly when it matches the UUID v4 format; an absent or malformed
(including empty) `config.trace_id` is silently replaced by the freshly
generated ID, and the call is never reported as an error. -/
theorem C10_trace_id_selection : ∀ (args : ExecuteOriArgs) (fresh : String),
    ((executeOriTool args fresh).meta_trace_id =
      match args.config.bind (fun c => c.trace_id) with
      | some t => if isValidTraceId t then t else fresh
      | none => fresh)
    ∧ (executeOriTool args fresh).isError = false := by
  intro args fresh
  refine ⟨?_, rfl⟩
  show effectiveTraceId args fresh = _
  unfold effectiveTraceId
  cases h : args.config.bind (fun c => c.trace_id) with
  | none => rfl
  | some t =>
    cases he : t.isEmpty with
    | true =>
      have ht : t = "" := (String.isEmpty_iff t).mp he
      subst ht
      simp [isValidTraceId]
    | false => simp [he]

/-- The inner finding loop of the decision matrix appends, in order, the
Critical (resp. High) findings of one SME to the accumulators. -/
theorem gateCollect_inner (name : String) (fs : List Finding)
    (a : List (String × Finding) × List (String × Finding)) :
    fs.foldl
      (fun a f =>
        if f.severity = .Critical then (a.1 ++ [(name, f)], a.2)
        else if f.severity = .High then (a.1, a.2 ++ [(name, f)])
        else a)
      a =
    (a.1 ++ (fs.filter fun f => f.severity == .Critical).map (fun f => (name, f)),
     a.2 ++ (fs.filter fun f => f.severity == .High).map (fun f => (name, f))) := by
  induction fs generalizing a with
  | nil => simp
  | cons f rest ih =>
    simp only [List.foldl_cons, List.filter_cons]
    cases hs : f.severity <;> simp [hs, ih, List.append_assoc]

/-- The outer loop collects exactly the order-preserving Critical and
High projections of all `(sme_name, finding)` pairs. -/
theorem gateCollect_eq (reviews : List (String × SmeReview))
    (a : List (String × Finding) × List (String × Finding)) :
    gateCollect a reviews =
      (a.1 ++ (allFindingPairs reviews).filter (fun p => p.2.severity == .Critical),
       a.2 ++ (allFindingPairs reviews).filter (fun p => p.2.severity == .High)) := by
  induction reviews generalizing a with
  | nil => simp [gateCollect, allFindingPairs]
  | cons nr rest ih =>
    obtain ⟨name, review⟩ := nr
    simp only [gateCollect]
    rw [gateCollect_inner, ih]
    simp [allFindingPairs, List.filter_append, List.filter_map, List.append_assoc,
      Function.comp_def]

/-- C1: the Phase 2.5 quality gate pauses iff some finding is Critical or
High — so the empty review mapping and all-Medium/Low/Info inputs
proceed — and a pause carries exactly the order-preserving, SME-name
associated lists of Critical and of High findings. -/
theorem C1_quality_gate_decide : ∀ reviews : List (String × SmeReview),
    (gateDecide reviews = .Proceed ↔
      ∀ p ∈ allFindingPairs reviews, p.2.severity ≠ .Critical ∧ p.2.severity ≠ .High)
    ∧ gateDecide reviews =
      (if ((allFindingPairs reviews).filter
            fun p => p.2.severity == .Critical || p.2.severity == .High) = []
       then .Proceed
       else .Pause
        ((allFindingPairs reviews).filter fun p => p.2.severity == .Critical)
        ((allFindingPairs reviews).filter fun p => p.2.severity == .High)) := by
  intro reviews
  have hcoll := gateCollect_eq reviews ([], [])
  have hsplit :
      ((allFindingPairs reviews).filter
          fun p => p.2.severity == .Critical || p.2.severity == .High) = [] ↔
        ((allFindingPairs reviews).filter fun p => p.2.severity == .Critical) = [] ∧
        ((allFindingPairs reviews).filter fun p => p.2.severity == .High) = [] := by
    simp only [List.filter_eq_nil_iff, Bool.or_eq_true, not_or, beq_iff_eq]
    constructor
    · intro h
      exact ⟨fun p hp => (h p hp).1, fun p hp => (h p hp).2⟩
    · intro h p hp
      exact ⟨(h.1 p hp), (h.2 p hp)⟩
  constructor
  · rw [gateDecide, hcoll]
    simp only [List.nil_append]
    constructor
    · intro h p hp
      by_contra hc
      rw [not_and_or, not_not, not_not] at hc
      have hne : ¬(((allFindingPairs reviews).filter
            fun p => p.2.severity == .Critical) = [] ∧
          ((allFindingPairs reviews).filter fun p => p.2.severity == .High) = []) := by
        intro ⟨h1, h2⟩
        rw [List.filter_eq_nil_iff] at h1 h2
        cases hc with
        | inl hcrit => exact h1 p hp (by simp [hcrit])
        | inr hhigh => exact h2 p hp (by simp [hhigh])
      simp only [hne, if_false] at h
      exact GateDecision.noConfusion h
    · intro h
      have h1 : ((allFindingPairs reviews).filter
          fun p => p.2.severity == .Critical) = [] := by
        rw [List.filter_eq_nil_iff]
        intro p hp
        simpa using (h p hp).1
      have h2 : ((allFindingPairs reviews).filter
          fun p => p.2.severity == .High) = [] := by
        rw [List.filter_eq_nil_iff]
        intro p hp
        simpa using (h p hp).2
      simp [h1, h2]
  · rw [gateDecide, hcoll]
    simp only [List.nil_append]
    by_cases hC : ((allFindingPairs reviews).filter
        fun p => p.2.severity == .Critical) = [] ∧
        ((allFindingPairs reviews).filter fun p => p.2.severity == .High) = []
    · rw [if_pos hC, if_pos (hsplit.mpr hC)]
    · rw [if_neg hC, if_neg (fun h => hC (hsplit.mp h))]

/-! Equivalence of the issue collector with direct conformance. -/

/-- `z.string()` leaf. -/
theorem checkString_nil_iff (p : String) (j : Json) :
    checkString p j = [] ↔ stringAccepts j = true := by
  cases j <;> simp [checkString, stringAccepts]

/-- `z.boolean()` leaf. -/
theorem checkBool_nil_iff (p : String) (j : Json) :
    checkBool p j = [] ↔ boolAccepts j = true := by
  cases j <;> simp [checkBool, boolAccepts]

/-- `z.number()` leaf. -/
theorem checkNumber_nil_iff (p : String) (j : Json) :
    checkNumber p j = [] ↔ numberAccepts j = true := by
  cases j <;> simp [checkNumber, numberAccepts]

/-- Version leaf. -/
theorem checkVersion_nil_iff (p : String) (j : Json) :
    checkVersion p j = [] ↔ versionAccepts j = true := by
  cases j with
  | str s => cases hv : isVersionString s <;> simp [checkVersion, versionAccepts, hv]
  | null => simp [checkVersion, versionAccepts]
  | bool b => simp [checkVersion, versionAccepts]
  | num q => simp [checkVersion, versionAccepts]
  | arr xs => simp [checkVersion, versionAccepts]
  | obj fs => simp [checkVersion, versionAccepts]

/-- String-array element walk. -/
theorem checkStringArrayAux_nil_iff (p : String) (xs : List Json) : ∀ i,
    checkStringArrayAux p i xs = [] ↔ xs.all stringAccepts = true := by
  induction xs with
  | nil => intro i; simp [checkStringArrayAux]
  | cons v rest ih =>
    intro i
    simp [checkStringArrayAux, List.append_eq_nil, checkString_nil_iff, ih]

/-- `z.array(z.string())`. -/
theorem checkStringArray_nil_iff (p : String) (j : Json) :
    checkStringArray p j = [] ↔ stringArrayAccepts j = true := by
  cases j <;> simp [checkStringArray, stringArrayAccepts, checkStringArrayAux_nil_iff]

/-- Record key walk. -/
theorem checkRecordAux_nil_iff (p : String) (fs : List (String × Json)) :
    checkRecordAux p fs = [] ↔ (fs.all fun kv => stringArrayAccepts kv.2) = true := by
  induction fs with
  | nil => simp [checkRecordAux]
  | cons kv rest ih =>
    obtain ⟨k, v⟩ := kv
    simp [checkRecordAux, List.append_eq_nil, checkStringArray_nil_iff, ih]

/-- `z.record(z.array(z.string()))`. -/
theorem checkRecordStringArray_nil_iff (p : String) (j : Json) :
    checkRecordStringArray p j = [] ↔ recordStringArrayAccepts j = true := by
  cases j <;> simp [checkRecordStringArray, recordStringArrayAccepts, checkRecordAux_nil_iff]

/-- A required field produces no issue iff the key is present and
conforms. -/
theorem reqField_nil_iff {chk : String → Json → List Issue} {ok : Json → Bool}
    (hco : ∀ p' v, chk p' v = [] ↔ ok v = true)
    (fs : List (String × Json)) (p key : String) :
    reqField fs p key chk = [] ↔ reqAccepts fs key ok = true := by
  unfold reqField reqAccepts
  cases jlookup fs key with
  | none => simp
  | some v => simpa using hco (joinPath p key) v

/-- An optional field produces no issue iff the key, when present,
conforms. -/
theorem optField_nil_iff {chk : String → Json → List Issue} {ok : Json → Bool}
    (hco : ∀ p' v, chk p' v = [] ↔ ok v = true)
    (fs : List (String × Json)) (p key : String) :
    optField fs p key chk = [] ↔ optAccepts fs key ok = true := by
  unfold optField optAccepts
  cases jlookup fs key with
  | none => simp
  | some v => simpa using hco (joinPath p key) v

/-- `security` sub-schema. -/
theorem checkSecuritySme_nil_iff (p : String) (j : Json) :
    checkSecuritySme p j = [] ↔ securitySmeAccepts j = true := by
  cases j <;>
    simp [checkSecuritySme, securitySmeAccepts, reqBoolAccepts, List.append_eq_nil,
      reqField_nil_iff checkBool_nil_iff, optField_nil_iff checkStringArray_nil_iff,
      optField_nil_iff checkBool_nil_iff, and_assoc]

/-- `compliance` sub-schema. -/
theorem checkComplianceSme_nil_iff (p : String) (j : Json) :
    checkComplianceSme p j = [] ↔ complianceSmeAccepts j = true := by
  cases j <;>
    simp [checkComplianceSme, complianceSmeAccepts, reqBoolAccepts, List.append_eq_nil,
      reqField_nil_iff checkBool_nil_iff, optField_nil_iff checkStringArray_nil_iff,
      and_assoc]

/-- `code_quality` sub-schema. -/
theorem checkCodeQualitySme_nil_iff (p : String) (j : Json) :
    checkCodeQualitySme p j = [] ↔ codeQualitySmeAccepts j = true := by
  cases j <;>
    simp [checkCodeQualitySme, codeQualitySmeAccepts, reqBoolAccepts, List.append_eq_nil,
      reqField_nil_iff checkBool_nil_iff, optField_nil_iff checkNumber_nil_iff,
      and_assoc]

/-- `performance` sub-schema. -/
theorem checkPerformanceSme_nil_iff (p : String) (j : Json) :
    checkPerformanceSme p j = [] ↔ performanceSmeAccepts j = true := by
  cases j <;>
    simp [checkPerformanceSme, performanceSmeAccepts, reqBoolAccepts, List.append_eq_nil,
      reqField_nil_iff checkBool_nil_iff, optField_nil_iff checkStringArray_nil_iff,
      and_assoc]

/-- `sme_agents` schema. -/
theorem checkSmeAgents_nil_iff (p : String) (j : Json) :
    checkSmeAgents p j = [] ↔ smeAgentsAccepts j = true := by
  cases j <;>
    simp [checkSmeAgents, smeAgentsAccepts, reqBoolAccepts, List.append_eq_nil,
      reqField_nil_iff checkBool_nil_iff,
      optField_nil_iff checkSecuritySme_nil_iff,
      optField_nil_iff checkComplianceSme_nil_iff,
      optField_nil_iff checkCodeQualitySme_nil_iff,
      optField_nil_iff checkPerformanceSme_nil_iff,
      and_assoc]

/-- `safety_hooks` schema. -/
theorem checkSafetyHooks_nil_iff (p : String) (j : Json) :
    checkSafetyHooks p j = [] ↔ safetyHooksAccepts j = true := by
  cases j <;>
    simp [checkSafetyHooks, safetyHooksAccepts, reqBoolAccepts, List.append_eq_nil,
      reqField_nil_iff checkBool_nil_iff,
      optField_nil_iff checkRecordStringArray_nil_iff,
      optField_nil_iff checkStringArray_nil_iff,
      and_assoc]

/-- `logging` schema. -/
theorem checkLogging_nil_iff (p : String) (j : Json) :
    checkLogging p j = [] ↔ loggingAccepts j = true := by
  cases j <;>
    simp [checkLogging, loggingAccepts, reqBoolAccepts, List.append_eq_nil,
      reqField_nil_iff checkBool_nil_iff,
      optField_nil_iff checkString_nil_iff,
      optField_nil_iff checkNumber_nil_iff,
      optField_nil_iff checkBool_nil_iff,
      and_assoc]

/-- The issue list is empty exactly on conforming documents. -/
theorem schemaIssues_nil_iff (j : Json) :
    schemaIssues j = [] ↔ schemaAccepts j = true := by
  cases j <;>
    simp [schemaIssues, schemaAccepts, List.append_eq_nil,
      reqField_nil_iff checkVersion_nil_iff,
      reqField_nil_iff checkSmeAgents_nil_iff,
      optField_nil_iff checkSafetyHooks_nil_iff,
      optField_nil_iff checkLogging_nil_iff,
      and_assoc]

/-- The scenario document `{"version":"1.2.0","sme_agents":{"enabled":true}}`. -/
def c7doc : Json :=
  .obj [("version", .str "1.2.0"), ("sme_agents", .obj [("enabled", .bool true)])]

/-- C7: the scenario document validates with `valid=true` and exactly one
warning (no individual SME enabled), and in general `valid` is exactly
structural conformance — warnings never flip it. -/
theorem C7_config_validation :
    validateConfig c7doc =
      { valid := true, errors := [],
        warnings := ["sme_agents.enabled is true but no specific SME agents are enabled"] }
    ∧ ∀ j, (validateConfig j).valid = schemaAccepts j := by
  constructor
  · decide
  · intro j
    unfold validateConfig
    cases hi : schemaIssues j with
    | nil =>
      have := (schemaIssues_nil_iff j).mp hi
      simp [this]
    | cons a t =>
      have : ¬ schemaAccepts j = true := fun hacc => by
        rw [← schemaIssues_nil_iff] at hacc
        rw [hacc] at hi
        exact List.noConfusion hi
      simp [Bool.not_eq_true] at this
      simp [this]

/-- C8: every document failing structural validation yields
`valid=false` with a non-empty error list of path/message entries (the
validator, a pure function here, neither repairs nor mutates its
input). -/
theorem C8_invalid_config_errors : ∀ j, schemaAccepts j = false →
    (validateConfig j).valid = false ∧ (validateConfig j).errors ≠ [] := by
  intro j h
  unfold validateConfig
  cases hi : schemaIssues j with
  | nil =>
    have := (schemaIssues_nil_iff j).mp hi
    rw [this] at h
    exact Bool.noConfusion h
  | cons a t => simp

/-- A concretely malformed document: version not `\d+\.\d+\.\d+` and
`sme_agents` missing. -/
def c8doc : Json := .obj [("version", .str "1.2")]

/-- C8 (witness): the theorem applied to the malformed `c8doc`. -/
theorem C8_invalid_config_errors_witness :
    schemaAccepts c8doc = false ∧
      ((validateConfig c8doc).valid = false ∧ (validateConfig c8doc).errors ≠ []) :=
  ⟨by decide, C8_invalid_config_errors c8doc (by decide)⟩

/-- A concrete review mapping: the security SME reports one Critical and
one Medium finding, the code-quality SME one High finding. -/
def sampleReviews : List (String × SmeReview) :=
  [("security",
    { executed := true
      overall_risk := "High"
      findings :=
        [⟨.Critical, "A02", "JWT secret hardcoded in source", "Move to environment variable"⟩,
         ⟨.Medium, "A05", "Verbose error messages", "Trim error detail"⟩]
      recommendation := "Block until fixes applied" }),
   ("code_quality",
    { executed := true
      overall_risk := "Medium"
      findings := [⟨.High, "complexity", "Deeply nested auth logic", "Extract helper functions"⟩]
      recommendation := "Refactor before merge" })]

/-- C1 (witness): the gate characterization applied at `sampleReviews`:
it pauses carrying the Critical finding and the High finding with their
SME names, in order. -/
theorem C1_quality_gate_decide_witness :
    gateDecide sampleReviews =
      .Pause
        [("security",
          ⟨.Critical, "A02", "JWT secret hardcoded in source", "Move to environment variable"⟩)]
        [("code_quality",
          ⟨.High, "complexity", "Deeply nested auth logic", "Extract helper functions"⟩)] := by
  rw [(C1_quality_gate_decide sampleReviews).2]
  decide

/-- Every transition from a state of `phaseStateList` lands in
`phaseStateList`. -/
theorem phaseStep_closed : ∀ s ∈ phaseStateList, ∀ s', PhaseStep s s' → s' ∈ phaseStateList := by
  intro s hs s' hstep
  fin_cases hs <;>
    cases hstep with
    | advance r rs h =>
      first
      | (obtain ⟨h1, h2⟩ := List.cons.inj h.symm
         subst h1
         subst h2
         decide)
      | simp at h
    | gate h =>
      first
      | decide
      | simp at h

/-- Reachable packet states lie in the finite state list. -/
theorem phaseReachable_mem : ∀ s, PhaseReachable s → s ∈ phaseStateList := by
  intro s h
  induction h with
  | refl => decide
  | tail _ hstep ih => exact phaseStep_closed _ ih _ hstep

/-- C9 (counterexample): the initial packet is reachable, yet the union
of `completed`, `{current}` and `remaining` is not the spec's full fixed
phase sequence — the conditional 2.5 gate is missing from `remaining`
(`[1,2,3,4]`) until the gate is entered. -/
theorem C9_counterexample_initial_union :
    PhaseReachable initPacket ∧
      ¬ (initPacket.completed ++ initPacket.current :: initPacket.remaining).Perm
          specFullPhaseSequence :=
  ⟨Relation.ReflTransGen.refl, by decide⟩

/-- C9 (amended): after every transition, `completed`, `{current}` and
`remaining` concatenate exactly (hence pairwise disjointly) to the run's
effective phase order — the fixed order 0,1,2,2.5,3,4 with 2.5 present
exactly when the gate has been entered — and `completed` is exactly the
prefix of that order preceding `current`. -/
theorem C9_phase_prefix_invariant : ∀ s, PhaseReachable s →
    (s.completed ++ s.current :: s.remaining = effSeq (gateEntered s))
    ∧ s.current ∉ s.completed
    ∧ s.current ∉ s.remaining
    ∧ (∀ p ∈ s.completed, p ∉ s.remaining)
    ∧ s.completed = (effSeq (gateEntered s)).takeWhile (fun p => p != s.current) := by
  intro s h
  have hmem := phaseReachable_mem s h
  fin_cases hmem <;> refine ⟨by decide, by decide, by decide, ?_, by decide⟩ <;> decide

/-- C9 (witness): the amended invariant applied at the packet state the
workflow document displays for the entered gate, reached by
Strategy → Research → Verify → gate entry. -/
theorem C9_phase_prefix_invariant_witness :
    ((⟨.p2_5, [.p0, .p1, .p2], [.p3, .p4]⟩ : PhaseRecord).completed ++
        (⟨.p2_5, [.p0, .p1, .p2], [.p3, .p4]⟩ : PhaseRecord).current ::
        (⟨.p2_5, [.p0, .p1, .p2], [.p3, .p4]⟩ : PhaseRecord).remaining =
      effSeq (gateEntered ⟨.p2_5, [.p0, .p1, .p2], [.p3, .p4]⟩))
    ∧ (⟨.p2_5, [.p0, .p1, .p2], [.p3, .p4]⟩ : PhaseRecord).current ∉
        (⟨.p2_5, [.p0, .p1, .p2], [.p3, .p4]⟩ : PhaseRecord).completed
    ∧ (⟨.p2_5, [.p0, .p1, .p2], [.p3, .p4]⟩ : PhaseRecord).current ∉
        (⟨.p2_5, [.p0, .p1, .p2], [.p3, .p4]⟩ : PhaseRecord).remaining
    ∧ (∀ p ∈ (⟨.p2_5, [.p0, .p1, .p2], [.p3, .p4]⟩ : PhaseRecord).completed,
        p ∉ (⟨.p2_5, [.p0, .p1, .p2], [.p3, .p4]⟩ : PhaseRecord).remaining)
    ∧ (⟨.p2_5, [.p0, .p1, .p2], [.p3, .p4]⟩ : PhaseRecord).completed =
        (effSeq (gateEntered ⟨.p2_5, [.p0, .p1, .p2], [.p3, .p4]⟩)).takeWhile
          (fun p => p != (⟨.p2_5, [.p0, .p1, .p2], [.p3, .p4]⟩ : PhaseRecord).current) := by
  have h1 : PhaseStep initPacket ⟨.p1, [.p0], [.p2, .p3, .p4]⟩ :=
    PhaseStep.advance initPacket .p1 [.p2, .p3, .p4] rfl
  have h2 : PhaseStep ⟨.p1, [.p0], [.p2, .p3, .p4]⟩ ⟨.p2, [.p0, .p1], [.p3, .p4]⟩ :=
    PhaseStep.advance ⟨.p1, [.p0], [.p2, .p3, .p4]⟩ .p2 [.p3, .p4] rfl
  have h3 : PhaseStep ⟨.p2, [.p0, .p1], [.p3, .p4]⟩ ⟨.p2_5, [.p0, .p1, .p2], [.p3, .p4]⟩ :=
    PhaseStep.gate ⟨.p2, [.p0, .p1], [.p3, .p4]⟩ rfl
  exact C9_phase_prefix_invariant ⟨.p2_5, [.p0, .p1, .p2], [.p3, .p4]⟩
    (((Relation.ReflTransGen.refl.tail h1).tail h2).tail h3)

end Ori
